import Mathlib

/-!
Verification of the onedrive_file_explorer repository.

This file gives a shallow embedding in Lean 4 of the two Python source
files `one_enum.py` (the tenant-wide enumerator) and `ms_file_explorer.py`
(the interactive explorer), restricted to the parts of the specification the
claims are about: the cursor-following pagination loops, the container
("drive") resolution chain, and the depth-bounded recursive file traversal.

Remote HTTP interaction is modelled by explicit response values: a single
request yields a `Req` (success payload, non-success status, or transport
exception), and one paginated query yields a list of `Page` responses, one
per request the loop issues, in the order the loop would issue them.
-/

namespace OneDriveExplorer

/-! ## Pagination model

A paginated endpoint answers each successive request of the fetch loop with
one `Page`: a 200 response carrying a batch of items and a flag saying
whether an `@odata.nextLink` cursor is present, a non-success HTTP status,
or a raised transport exception.
-/

inductive Page (α : Type) where
  | ok (batch : List α) (hasNext : Bool)
  | httpErr
  | raised
deriving DecidableEq

/-- The pagination loop of `one_enum.py` (`listar_todos_los_usuarios`,
`listar_todos_los_sites`): `while url:` issue the request; on status 200
extend the accumulator with `value` and follow `@odata.nextLink`; on a
non-success status `break`; an exception is caught *inside* the loop and
also breaks. In both failure cases the items collected so far are kept.
The recursion returns the items this and later iterations contribute; the
accumulated prefix is supplied by the `++` of the caller. -/
def fetchPagesEnum {α : Type} : List (Page α) → List α
  | [] => []
  | Page.ok batch true :: rest => batch ++ fetchPagesEnum rest
  | Page.ok batch false :: _ => batch
  | Page.httpErr :: _ => []
  | Page.raised :: _ => []

/-- Function `listar_todos_los_usuarios` of `one_enum.py`, lines 68-96: full
pagination over the `/users` collection. -/
def listar_todos_los_usuarios {α : Type} (resps : List (Page α)) : List α :=
  fetchPagesEnum resps

/-- Function `listar_todos_los_sites` of `one_enum.py`, lines 98-126: full
pagination over the `/sites` collection (same loop). -/
def listar_todos_los_sites {α : Type} (resps : List (Page α)) : List α :=
  fetchPagesEnum resps

/-- The inner loop of `list_files` in `ms_file_explorer.py` (lines 287-299)
with its accumulator `items`. A non-success status breaks the loop and the
collected items are returned, but a transport exception propagates to the
`except` clause of `list_files`, which returns `[]`, discarding the
accumulator. -/
def listFilesLoop {α : Type} (acc : List α) : List (Page α) → List α
  | [] => acc
  | Page.ok batch true :: rest => listFilesLoop (acc ++ batch) rest
  | Page.ok batch false :: _ => acc ++ batch
  | Page.httpErr :: _ => acc
  | Page.raised :: _ => []

/-- Function `list_files` of `ms_file_explorer.py`, lines 274-303: returns `[]` when
no drive is selected, else runs the pagination loop starting from the empty
accumulator. -/
def list_files {α : Type} (drive_id : Option String) (resps : List (Page α)) : List α :=
  match drive_id with
  | none => []
  | some _ => listFilesLoop [] resps

/-- A well-formed fully successful paginated collection: every page is a
200 response and carries a cursor exactly when it is not the last page. -/
def okPagesLast {α : Type} : List (List α) → List (Page α)
  | [] => []
  | [b] => [Page.ok b false]
  | b :: rest => Page.ok b true :: okPagesLast rest

/-- A run of successful pages each of which still carries a cursor
(used as the successful prefix before a failing page). -/
def okPagesCursor {α : Type} (pages : List (List α)) : List (Page α) :=
  pages.map (fun b => Page.ok b true)

theorem fetchPagesEnum_okPagesLast {α : Type} (pages : List (List α)) :
    fetchPagesEnum (okPagesLast pages) = pages.flatten := by
  induction pages with
  | nil => rfl
  | cons b rest ih =>
    cases rest with
    | nil => simp [okPagesLast, fetchPagesEnum]
    | cons c rest2 =>
      simp only [okPagesLast, fetchPagesEnum, List.flatten] at *
      rw [ih]

theorem listFilesLoop_okPagesLast {α : Type} (pages : List (List α)) :
    ∀ acc : List α, listFilesLoop acc (okPagesLast pages) = acc ++ pages.flatten := by
  induction pages with
  | nil => intro acc; simp [okPagesLast, listFilesLoop]
  | cons b rest ih =>
    intro acc
    cases rest with
    | nil => simp [okPagesLast, listFilesLoop]
    | cons c rest2 =>
      simp only [okPagesLast, listFilesLoop, List.flatten] at *
      rw [ih]
      simp

theorem fetchPagesEnum_okPagesCursor_append {α : Type} (pages : List (List α))
    (rest : List (Page α)) :
    fetchPagesEnum (okPagesCursor pages ++ rest) = pages.flatten ++ fetchPagesEnum rest := by
  induction pages with
  | nil => simp [okPagesCursor]
  | cons b ps ih =>
    simp only [okPagesCursor, List.map, List.cons_append, List.append_eq,
      fetchPagesEnum, List.flatten] at *
    rw [ih]
    simp

theorem listFilesLoop_okPagesCursor_append {α : Type} (pages : List (List α))
    (rest : List (Page α)) :
    ∀ acc : List α,
      listFilesLoop acc (okPagesCursor pages ++ rest) = listFilesLoop (acc ++ pages.flatten) rest := by
  induction pages with
  | nil => intro acc; simp [okPagesCursor]
  | cons b ps ih =>
    intro acc
    simp only [okPagesCursor, List.map, List.cons_append, List.append_eq,
      listFilesLoop, List.flatten] at *
    rw [ih]
    simp

/-- C3: For every paginated collection split into pages in any way (every
page a success, cursor present exactly on the non-final pages), both
page-fetching loops — `listar_todos_los_usuarios` of the enumerator and
`list_files` of the explorer — return exactly the concatenation of the
page items, in page order. -/
theorem pagination_returns_all_items {α β : Type} (pagesU : List (List α))
    (pagesI : List (List β)) (d : String) :
    listar_todos_los_usuarios (okPagesLast pagesU) = pagesU.flatten ∧
    list_files (some d) (okPagesLast pagesI) = pagesI.flatten := by
  constructor
  · exact fetchPagesEnum_okPagesLast pagesU
  · show listFilesLoop [] (okPagesLast pagesI) = pagesI.flatten
    rw [listFilesLoop_okPagesLast]
    simp

/-! ## Data model -/

/-- A user object as consumed from the `/users` collection. -/
structure User where
  id : String
  displayName : String
  userPrincipalName : String
deriving DecidableEq

/-- A SharePoint site object. -/
structure Site where
  id : String
  displayName : String
deriving DecidableEq

/-- A drive item (file or folder): the fields `listar_archivos_recursivo`
reads from each child JSON object. `folder` models the presence of the
`folder` facet (the Python test checks the `folder` key of the item dict). -/
structure Item where
  id : String
  name : String
  folder : Bool
  size : Nat
  createdDateTime : String
  lastModifiedDateTime : String
  webUrl : String
deriving DecidableEq

/-- A drive object: the fields the resolution code reads. -/
structure Drive where
  id : String
  name : String
  quotaUsed : Nat
  quotaTotal : Nat
deriving DecidableEq

/-- A concrete item used in counterexamples and witnesses. -/
def itemA : Item :=
  { id := "item-a", name := "a.txt", folder := false, size := 10,
    createdDateTime := "2024-01-01T00:00:00Z",
    lastModifiedDateTime := "2024-01-02T00:00:00Z",
    webUrl := "https://contoso-my.sharepoint.example/a.txt" }

/-- C4 (amended): for a non-success HTTP status at any page, both fetch
loops stop following cursors and return exactly the items of the preceding
successful pages; on a transport exception the enumerator loop
(`listar_todos_los_usuarios`) does the same, but the `list_files` of the explorer returns the empty list, discarding the already-collected
pages. Neither loop raises to its caller (both are total functions of the
response sequence). -/
theorem pagination_failure_returns_partial {α β : Type} (ps : List (List α))
    (qs : List (List β)) (d : String) (tail : List (Page α)) (tail2 : List (Page β)) :
    listar_todos_los_usuarios (okPagesCursor ps ++ Page.httpErr :: tail) = ps.flatten ∧
    listar_todos_los_usuarios (okPagesCursor ps ++ Page.raised :: tail) = ps.flatten ∧
    list_files (some d) (okPagesCursor qs ++ Page.httpErr :: tail2) = qs.flatten ∧
    list_files (some d) (okPagesCursor qs ++ Page.raised :: tail2) = [] := by
  refine ⟨?_, ?_, ?_, ?_⟩
  · show fetchPagesEnum (okPagesCursor ps ++ Page.httpErr :: tail) = ps.flatten
    rw [fetchPagesEnum_okPagesCursor_append]
    simp [fetchPagesEnum]
  · show fetchPagesEnum (okPagesCursor ps ++ Page.raised :: tail) = ps.flatten
    rw [fetchPagesEnum_okPagesCursor_append]
    simp [fetchPagesEnum]
  · show listFilesLoop [] (okPagesCursor qs ++ Page.httpErr :: tail2) = qs.flatten
    rw [listFilesLoop_okPagesCursor_append]
    simp [listFilesLoop]
  · show listFilesLoop [] (okPagesCursor qs ++ Page.raised :: tail2) = []
    rw [listFilesLoop_okPagesCursor_append]
    simp [listFilesLoop]

/-- C4 counterexample: the `list_files` of the explorer receives a successful
first page containing one item followed by a transport exception; the
claim says it returns the items collected from the preceding successful
pages (here `[itemA]`), but it returns `[]`. -/
theorem list_files_raise_discards_counterexample :
    list_files (some "drive-1") [Page.ok [itemA] true, Page.raised] = [] ∧
    ([] : List Item) ≠ [itemA] := by
  constructor
  · rfl
  · intro h
    exact absurd h (by simp)

/-! ## The recursive traversal of `one_enum.py`

`listar_archivos_recursivo` (lines 162-231): guard `profundidad >
max_depth` returns immediately; otherwise the children of the current node
are fetched with the full pagination loop; each child yields one CSV row
(depth = current `profundidad`), and if the child has the `folder` facet
and `profundidad < max_depth` the function recurses into it with
`profundidad + 1`.

The environment `env` maps a node (the optional `item_id`; `none` is the
drive root) to the page-response sequence its children listing produces.
The embedding returns the emitted CSV rows in emission order together with
the children-listing calls actually issued, each tagged with the
`profundidad` value at which it was issued.
-/

/-- One row of the `archivos` CSV, with the fields written by
`listar_archivos_recursivo`. -/
structure FileRecord where
  drive_id : String
  ruta : String
  nombre : String
  tipo : String
  tamano_bytes : Nat
  creado : String
  modificado : String
  url : String
  profundidad : Int
deriving DecidableEq

/-- The Python expression `ruta.rstrip(slash)`: drop trailing slash
characters. Implemented on the character list by structural recursion so
that it evaluates inside the kernel. -/
def rstripSlash (s : String) : String :=
  String.mk ((s.toList.reverse.dropWhile (fun c => c = '/')).reverse)

/-- The pagination loop inside `listar_archivos_recursivo` (lines
179-188). It sits inside the single `try` of the function: a non-success status
breaks the loop keeping the collected items, but a transport exception
aborts the whole function call before any row is written, which we model
as `none`. -/
def fetchChildrenTrav : List (Page Item) → Option (List Item)
  | [] => some []
  | Page.ok batch true :: rest => (fetchChildrenTrav rest).map (fun tl => batch ++ tl)
  | Page.ok batch false :: _ => some batch
  | Page.httpErr :: _ => some []
  | Page.raised :: _ => none

mutual

/-- Function `listar_archivos_recursivo` of `one_enum.py`, lines 162-231. Returns
the emitted `FileRecord`s in emission order and the children-listing calls
issued (node listed, depth at which the listing happened), in call order. -/
def listar_archivos_recursivo (env : Option String → List (Page Item)) (max_depth : Int)
    (drive_id : String) (item_id : Option String) (ruta : String) (profundidad : Int) :
    List FileRecord × List (Option String × Int) :=
  if profundidad > max_depth then ([], [])
  else
    match fetchChildrenTrav (env item_id) with
    | none => ([], [(item_id, profundidad)])
    | some items =>
      let r := procesar_items env max_depth drive_id ruta profundidad items
      (r.1, (item_id, profundidad) :: r.2)
termination_by ((max_depth - profundidad).toNat, 1, 0)

/-- The `for item in items:` body of `listar_archivos_recursivo` (lines
191-228): build the row, emit it, and recurse when the item is a folder
and the depth bound has not been reached. -/
def procesar_items (env : Option String → List (Page Item)) (max_depth : Int)
    (drive_id : String) (ruta : String) (profundidad : Int) :
    List Item → List FileRecord × List (Option String × Int)
  | [] => ([], [])
  | item :: rest =>
    let nombre := item.name
    let ruta_completa := rstripSlash ruta ++ "/" ++ nombre
    let row : FileRecord :=
      { drive_id := drive_id, ruta := ruta_completa, nombre := nombre,
        tipo := if item.folder then "carpeta" else "archivo",
        tamano_bytes := item.size, creado := item.createdDateTime,
        modificado := item.lastModifiedDateTime, url := item.webUrl,
        profundidad := profundidad }
    let sub :=
      if _h : item.folder = true ∧ profundidad < max_depth then
        listar_archivos_recursivo env max_depth drive_id (some item.id) ruta_completa
          (profundidad + 1)
      else ([], [])
    let tls := procesar_items env max_depth drive_id ruta profundidad rest
    (row :: (sub.1 ++ tls.1), sub.2 ++ tls.2)
termination_by items => ((max_depth - profundidad).toNat, 0, items.length)

end

/-! ## The visit tree

To state the pre-order and stack-depth claims, the traversal is replayed as
the tree of nodes it actually visits: one `VisitTree` node per emitted
record, whose children are the subtrees produced by recursing into the item
(empty when the item is a file or the depth bound stops the recursion).
-/

inductive VisitTree where
  | node (row : FileRecord) (children : List VisitTree)

mutual

/-- The forest of visit trees rooted at the children of the given node,
mirroring `listar_archivos_recursivo` step for step. -/
def visitForest (env : Option String → List (Page Item)) (max_depth : Int)
    (drive_id : String) (item_id : Option String) (ruta : String) (profundidad : Int) :
    List VisitTree :=
  if profundidad > max_depth then []
  else
    match fetchChildrenTrav (env item_id) with
    | none => []
    | some items => visitItems env max_depth drive_id ruta profundidad items
termination_by ((max_depth - profundidad).toNat, 1, 0)

/-- One visit tree per processed item, mirroring `procesar_items`. -/
def visitItems (env : Option String → List (Page Item)) (max_depth : Int)
    (drive_id : String) (ruta : String) (profundidad : Int) :
    List Item → List VisitTree
  | [] => []
  | item :: rest =>
    let nombre := item.name
    let ruta_completa := rstripSlash ruta ++ "/" ++ nombre
    let row : FileRecord :=
      { drive_id := drive_id, ruta := ruta_completa, nombre := nombre,
        tipo := if item.folder then "carpeta" else "archivo",
        tamano_bytes := item.size, creado := item.createdDateTime,
        modificado := item.lastModifiedDateTime, url := item.webUrl,
        profundidad := profundidad }
    let sub :=
      if _h : item.folder = true ∧ profundidad < max_depth then
        visitForest env max_depth drive_id (some item.id) ruta_completa (profundidad + 1)
      else []
    VisitTree.node row sub :: visitItems env max_depth drive_id ruta profundidad rest
termination_by items => ((max_depth - profundidad).toNat, 0, items.length)

end

mutual

/-- Pre-order linearisation of a visit tree, following the wording of the
specification: the record of a node comes first, then the records of its
subtree, then nothing else — siblings follow afterwards via
`preorderForest`. -/
def preorderFlatten : VisitTree → List FileRecord
  | VisitTree.node row children => row :: preorderForest children

/-- Pre-order linearisation of a forest: each tree completely before the
next sibling tree. -/
def preorderForest : List VisitTree → List FileRecord
  | [] => []
  | t :: ts => preorderFlatten t ++ preorderForest ts

end

mutual

/-- Height of a visit tree: the number of nested recursive traversal
invocations needed below (and including) this node. -/
def treeHeight : VisitTree → Nat
  | VisitTree.node _ children => 1 + forestHeight children

/-- Height of a forest: the maximum height of its trees. -/
def forestHeight : List VisitTree → Nat
  | [] => 0
  | t :: ts => max (treeHeight t) (forestHeight ts)

end

/-! ## Depth bound (C1) -/

/-- C1: in every traversal run of `listar_archivos_recursivo` with
configured maximum depth `max_depth` — any starting node, any response
environment — every emitted `FileRecord` has `profundidad ≤ max_depth`,
and every children-listing call is issued at a depth `≤ max_depth`. Since
recursing into a folder emitted at depth `d` would issue its
children-listing call at depth `d + 1`, a folder emitted at depth
`max_depth` is never recursed into. -/
theorem traversal_depth_bounded (env : Option String → List (Page Item)) (max_depth : Int)
    (drive_id : String) :
    ∀ (item_id : Option String) (ruta : String) (profundidad : Int),
      (∀ r ∈ (listar_archivos_recursivo env max_depth drive_id item_id ruta profundidad).1,
        r.profundidad ≤ max_depth) ∧
      (∀ c ∈ (listar_archivos_recursivo env max_depth drive_id item_id ruta profundidad).2,
        c.2 ≤ max_depth) := by
  refine listar_archivos_recursivo.induct env max_depth drive_id
    (fun item_id ruta profundidad =>
      (∀ r ∈ (listar_archivos_recursivo env max_depth drive_id item_id ruta profundidad).1,
        r.profundidad ≤ max_depth) ∧
      (∀ c ∈ (listar_archivos_recursivo env max_depth drive_id item_id ruta profundidad).2,
        c.2 ≤ max_depth))
    (fun ruta profundidad items => profundidad ≤ max_depth →
      (∀ r ∈ (procesar_items env max_depth drive_id ruta profundidad items).1,
        r.profundidad ≤ max_depth) ∧
      (∀ c ∈ (procesar_items env max_depth drive_id ruta profundidad items).2,
        c.2 ≤ max_depth))
    ?_ ?_ ?_ ?_ ?_
  · intro item_id ruta profundidad hgt
    rw [listar_archivos_recursivo.eq_def]
    simp [hgt]
  · intro item_id ruta profundidad hle hnone
    rw [listar_archivos_recursivo.eq_def]
    simp [hle, hnone]
    omega
  · intro item_id ruta profundidad hle items hsome ih
    have hple : profundidad ≤ max_depth := by omega
    obtain ⟨ih1, ih2⟩ := ih hple
    rw [listar_archivos_recursivo.eq_def]
    simp only [if_neg hle, hsome]
    constructor
    · intro r hr
      exact ih1 r hr
    · intro c hc
      simp only [List.mem_cons] at hc
      rcases hc with hc | hc
      · subst hc; exact hple
      · exact ih2 c hc
  · intro ruta profundidad _
    simp [procesar_items]
  · intro ruta profundidad item rest nombre ruta_completa ih1 ih2 hple
    rw [procesar_items.eq_def]
    simp only []
    constructor
    · intro r hr
      simp only [List.mem_cons, List.mem_append] at hr
      rcases hr with hr | hr | hr
      · subst hr; exact hple
      · by_cases hf : item.folder = true ∧ profundidad < max_depth
        · simp only [dif_pos hf] at hr
          exact (ih1 hf).1 r hr
        · simp only [dif_neg hf] at hr
          simp at hr
      · exact (ih2 hple).1 r hr
    · intro c hc
      simp only [List.mem_append] at hc
      rcases hc with hc | hc
      · by_cases hf : item.folder = true ∧ profundidad < max_depth
        · simp only [dif_pos hf] at hc
          exact (ih1 hf).2 c hc
        · simp only [dif_neg hf] at hc
          simp at hc
      · exact (ih2 hple).2 c hc

/-- A response environment with a single successful root page holding one
file; used to witness the traversal theorems on a concrete input. -/
def envFlat : Option String → List (Page Item) :=
  fun _ => [Page.ok [itemA] false]

/-- The row the traversal of `envFlat` emits for `itemA` at the root. -/
def rowA0 : FileRecord :=
  { drive_id := "d", ruta := rstripSlash "/" ++ "/" ++ "a.txt", nombre := "a.txt",
    tipo := "archivo", tamano_bytes := 10,
    creado := "2024-01-01T00:00:00Z", modificado := "2024-01-02T00:00:00Z",
    url := "https://contoso-my.sharepoint.example/a.txt", profundidad := 0 }

theorem listar_envFlat_eval :
    listar_archivos_recursivo envFlat 0 "d" none "/" 0 = ([rowA0], [(none, 0)]) := by
  rw [listar_archivos_recursivo.eq_def]
  simp +decide [envFlat, fetchChildrenTrav, procesar_items.eq_def, itemA, rowA0]

/-- Witness for C1: the record emitted by a concrete one-page traversal is
in the output and its recorded depth obeys the bound. -/
theorem traversal_depth_bounded_witness :
    rowA0 ∈ (listar_archivos_recursivo envFlat 0 "d" none "/" 0).1 ∧
    rowA0.profundidad ≤ 0 := by
  have hmem : rowA0 ∈ (listar_archivos_recursivo envFlat 0 "d" none "/" 0).1 := by
    rw [listar_envFlat_eval]
    exact List.mem_singleton.mpr rfl
  exact ⟨hmem, (traversal_depth_bounded envFlat 0 "d" none "/" 0).1 rowA0 hmem⟩

/-! ## Pre-order emission (C9) -/

/-- C9: within a single container, the sequence of `FileRecord`s emitted by
`listar_archivos_recursivo` is exactly the pre-order linearisation of the
tree of visited nodes: each record is emitted only once the children
listing of its parent has produced it, immediately before every record of
its own subtree, and the whole subtree precedes the records of later
siblings. The traversal of one container is a single sequential recursion,
so this order is also the write order to the CSV sink. -/
theorem traversal_emits_preorder (env : Option String → List (Page Item)) (max_depth : Int)
    (drive_id : String) :
    ∀ (item_id : Option String) (ruta : String) (profundidad : Int),
      (listar_archivos_recursivo env max_depth drive_id item_id ruta profundidad).1 =
        preorderForest (visitForest env max_depth drive_id item_id ruta profundidad) := by
  refine listar_archivos_recursivo.induct env max_depth drive_id
    (fun item_id ruta profundidad =>
      (listar_archivos_recursivo env max_depth drive_id item_id ruta profundidad).1 =
        preorderForest (visitForest env max_depth drive_id item_id ruta profundidad))
    (fun ruta profundidad items =>
      (procesar_items env max_depth drive_id ruta profundidad items).1 =
        preorderForest (visitItems env max_depth drive_id ruta profundidad items))
    ?_ ?_ ?_ ?_ ?_
  · intro item_id ruta profundidad hgt
    rw [listar_archivos_recursivo.eq_def, visitForest.eq_def]
    simp [hgt, preorderForest]
  · intro item_id ruta profundidad hle hnone
    rw [listar_archivos_recursivo.eq_def, visitForest.eq_def]
    simp [if_neg hle, hnone, preorderForest]
  · intro item_id ruta profundidad hle items hsome ih
    rw [listar_archivos_recursivo.eq_def, visitForest.eq_def]
    simp only [if_neg hle, hsome]
    exact ih
  · intro ruta profundidad
    rw [procesar_items.eq_def, visitItems.eq_def]
    simp [preorderForest]
  · intro ruta profundidad item rest nombre ruta_completa ih1 ih2
    rw [procesar_items.eq_def, visitItems.eq_def]
    by_cases hf : item.folder = true ∧ profundidad < max_depth
    · simp only [dif_pos hf]
      rw [preorderForest, preorderFlatten, ih1 hf, ih2]
      simp
    · simp only [dif_neg hf]
      rw [preorderForest, preorderFlatten, ih2]
      simp [preorderForest]

/-! ## Termination and stack bound (C10) -/

theorem visitForest_height_le (env : Option String → List (Page Item)) (max_depth : Int)
    (drive_id : String) :
    ∀ (item_id : Option String) (ruta : String) (profundidad : Int),
      forestHeight (visitForest env max_depth drive_id item_id ruta profundidad) ≤
        (max_depth - profundidad + 1).toNat := by
  refine visitForest.induct env max_depth drive_id
    (fun item_id ruta profundidad =>
      forestHeight (visitForest env max_depth drive_id item_id ruta profundidad) ≤
        (max_depth - profundidad + 1).toNat)
    (fun ruta profundidad items => profundidad ≤ max_depth →
      forestHeight (visitItems env max_depth drive_id ruta profundidad items) ≤
        (max_depth - profundidad + 1).toNat)
    ?_ ?_ ?_ ?_ ?_
  · intro item_id ruta profundidad hgt
    rw [visitForest.eq_def]
    simp [hgt, forestHeight]
  · intro item_id ruta profundidad hle hnone
    rw [visitForest.eq_def]
    simp [if_neg hle, hnone, forestHeight]
  · intro item_id ruta profundidad hle items hsome ih
    rw [visitForest.eq_def]
    simp only [if_neg hle, hsome]
    exact ih (by omega)
  · intro ruta profundidad _
    rw [visitItems.eq_def]
    simp [forestHeight]
  · intro ruta profundidad item rest nombre ruta_completa ih1 ih2 hple
    rw [visitItems.eq_def]
    simp only []
    rw [forestHeight, treeHeight]
    refine max_le ?_ (ih2 hple)
    by_cases hf : item.folder = true ∧ profundidad < max_depth
    · simp only [dif_pos hf]
      have hb : forestHeight (visitForest env max_depth drive_id (some item.id)
          (rstripSlash ruta ++ "/" ++ item.name) (profundidad + 1)) ≤
          (max_depth - (profundidad + 1) + 1).toNat := ih1 hf
      omega
    · simp only [dif_neg hf]
      rw [forestHeight]
      omega

/-- C10: the recursive traversal terminates on every input (it is a total
function in this embedding, accepted by a well-founded measure that is
exactly the depth budget `max_depth - profundidad`); a call whose starting
depth already exceeds `max_depth` returns immediately with no records and
no listing calls — in particular a negative `max_depth` with start depth 0
emits zero records — and the nesting depth of the recursion, measured as
the height of the visit tree, is bounded by
`max 0 (max_depth - profundidad + 1)`. -/
theorem traversal_terminates_depth_bounded (env : Option String → List (Page Item))
    (max_depth : Int) (drive_id : String) (item_id : Option String) (ruta : String)
    (profundidad : Int) :
    (profundidad > max_depth →
      listar_archivos_recursivo env max_depth drive_id item_id ruta profundidad = ([], [])) ∧
    forestHeight (visitForest env max_depth drive_id item_id ruta profundidad) ≤
      (max_depth - profundidad + 1).toNat := by
  constructor
  · intro hgt
    rw [listar_archivos_recursivo.eq_def]
    simp [hgt]
  · exact visitForest_height_le env max_depth drive_id item_id ruta profundidad

/-- Witness for C10: with `max_depth = -1` (below the starting depth 0)
the concrete traversal emits nothing, issues no listing call, and the
recursion height is 0. -/
theorem traversal_terminates_depth_bounded_witness :
    listar_archivos_recursivo envFlat (-1) "d" none "/" 0 = ([], []) ∧
    forestHeight (visitForest envFlat (-1) "d" none "/" 0) ≤ ((-1 : Int) - 0 + 1).toNat := by
  have h := traversal_terminates_depth_bounded envFlat (-1) "d" none "/" 0
  exact ⟨h.1 (by decide), h.2⟩

/-! ## Single-request model and the container resolution chain

A single HTTP request either returns status 200 with a decoded payload
(`ok`), returns some non-success status (`status`), or raises a transport
exception (`exn`).
-/

inductive Req (α : Type) where
  | ok (v : α)
  | status (code : Nat)
  | exn
deriving DecidableEq

/-- The remote endpoints `ms_file_explorer.py` consults during resolution,
as response-valued functions of the request parameter. -/
structure GraphEnv where
  usersLookup : String → Req (List User)
  userDrive : String → Req Drive
  userDrives : String → Req (List Drive)
  sitesSearch : String → Req (List Site)
  siteDrives : String → Req (List Drive)

/-- One entry of `self.available_drives`: the dict built by
`get_user_drives` and `get_drives_from_url` with keys `id`, `name`,
`type`, `owner` and the quota numbers. -/
structure TaggedDrive where
  id : String
  name : String
  type : String
  owner : String
  quotaUsed : Nat
  quotaTotal : Nat
deriving DecidableEq

/-- The outcome of a resolution attempt: the boolean the Python function
returns, the final `self.available_drives`, the selected `self.drive_id`,
and whether the global-search fallback (`search_all_drives_by_email`) was
invoked. -/
structure ResolveOutcome where
  success : Bool
  available_drives : List TaggedDrive
  drive_id : Option String
  usedGlobalSearch : Bool
deriving DecidableEq

/-- Character-level worker for the Python `str.split` with a non-empty
separator `s0 :: srest`. The fuel argument (instantiated with the length
of the input) makes the recursion structural, so that concrete inputs
evaluate inside the kernel; every step consumes at least one character, so
the fuel is never exhausted when it starts at the input length. -/
def pySplitChars (s0 : Char) (srest : List Char) : Nat → List Char → List (List Char)
  | _, [] => [[]]
  | 0, rest => [rest]
  | fuel + 1, c :: cs =>
    if (s0 :: srest).isPrefixOf (c :: cs) then
      [] :: pySplitChars s0 srest fuel (cs.drop srest.length)
    else
      match pySplitChars s0 srest fuel cs with
      | [] => [[c]]
      | g :: gs => (c :: g) :: gs

/-- The Python `s.split(sep)` for a non-empty separator: non-overlapping
left-to-right occurrences of `sep` delimit the parts, empty parts are
kept, and a separator-free string yields the one-element list `[s]`. -/
def pySplit (s : String) (sep : String) : List String :=
  match sep.toList with
  | [] => [s]
  | s0 :: srest => (pySplitChars s0 srest s.toList.length s.toList).map (fun cs => String.mk cs)

/-- Email reconstruction of `get_drives_from_url` (lines 118-127): split
the path segment on underscores; fewer than 3 parts is rejected; otherwise
the last part is the TLD, the second-to-last the domain, and the remaining
leading parts are joined with dots. -/
def email_from_personal_part (personal_part : String) : Option String :=
  let parts := pySplit personal_part "_"
  if parts.length < 3 then none
  else
    let tld := parts.getLastD ""
    let domain := parts.getD (parts.length - 2) ""
    let name_parts := parts.take (parts.length - 2)
    some (String.intercalate "." name_parts ++ "@" ++ domain ++ "." ++ tld)

/-- URL preprocessing of `get_drives_from_url` (lines 109-116): strip
trailing slashes, require the marker `/personal/` (in Python, membership of
the marker in the URL, equivalently the split producing at least two
pieces), and take the part after its last occurrence. -/
def parse_url_email (onedrive_url : String) : Option String :=
  let u := rstripSlash onedrive_url
  let pieces := pySplit u "/personal/"
  if pieces.length < 2 then none
  else email_from_personal_part (pieces.getLastD "")

/-- Function `search_all_drives_by_email` (lines 67-102): search sites for the
email; on any failure of the search return no drives; for each matching
site collect its drives, skipping sites whose drive listing fails. -/
def search_all_drives_by_email (env : GraphEnv) (email : String) : List Drive :=
  match env.sitesSearch email with
  | Req.ok sites =>
    sites.foldl (fun acc site =>
      match env.siteDrives site.id with
      | Req.ok ds => acc ++ ds
      | _ => acc) []
  | _ => []

/-- Function `select_drive` (lines 234-272), with the interactive `input()` given
as the parameter `choice`: empty input defaults to the first drive; a
numeric in-range input selects that drive; anything else fails. Returns
the selected drive id. -/
def select_drive (choice : String) (available : List TaggedDrive) : Option String :=
  let c := if choice.trim = "" then "1" else choice.trim
  match c.toNat? with
  | some n =>
    if 1 ≤ n ∧ n ≤ available.length then (available.get? (n - 1)).map (fun d => d.id)
    else none
  | none => none

/-- The `available_drives` list `get_user_drives` (lines 185-221) builds:
the default drive first, tagged `personal` (skipped if its request fails),
then every drive of the full list that does not repeat an already-present
`id`, tagged `shared`. -/
def get_user_drives_list (env : GraphEnv) (user_id user_name : String) : List TaggedDrive :=
  let base : List TaggedDrive :=
    match env.userDrive user_id with
    | Req.ok d =>
      [{ id := d.id, name := user_name ++ " - OneDrive Personal", type := "personal",
         owner := user_name, quotaUsed := d.quotaUsed, quotaTotal := d.quotaTotal }]
    | _ => []
  match env.userDrives user_id with
  | Req.ok ds =>
    ds.foldl (fun acc d =>
      if acc.any (fun x => x.id == d.id) then acc
      else acc ++ [{ id := d.id, name := d.name, type := "shared", owner := user_name,
                     quotaUsed := d.quotaUsed, quotaTotal := d.quotaTotal }]) base
  | _ => base

/-- Function `get_user_drives` (lines 185-232): build the list, fail on zero
drives, auto-select a single drive, otherwise defer to `select_drive`. -/
def get_user_drives (env : GraphEnv) (choice : String) (user_id user_name : String) :
    ResolveOutcome :=
  let av := get_user_drives_list env user_id user_name
  if av.length = 0 then ⟨false, av, none, false⟩
  else if av.length = 1 then ⟨true, av, (av.head?).map (fun d => d.id), false⟩
  else
    match select_drive choice av with
    | some did => ⟨true, av, some did, false⟩
    | none => ⟨false, av, none, false⟩

/-- The global-search fallback stage of `get_drives_from_url` (lines
152-177): run the tenant-wide search, tag every drive found `huerfano`
with the derived email as owner, then select as in the primary path; with
no drives found the function reports failure. -/
def global_search_phase (env : GraphEnv) (choice : String) (email : String) :
    ResolveOutcome :=
  let drives := search_all_drives_by_email env email
  let available := drives.map (fun d =>
    ({ id := d.id, name := d.name, type := "huerfano", owner := email,
       quotaUsed := d.quotaUsed, quotaTotal := d.quotaTotal } : TaggedDrive))
  if available.length = 0 then ⟨false, available, none, true⟩
  else if available.length = 1 then ⟨true, available, (available.head?).map (fun d => d.id), true⟩
  else
    match select_drive choice available with
    | some did => ⟨true, available, some did, true⟩
    | none => ⟨false, available, none, true⟩

/-- Function `get_drives_from_url` (lines 104-183): parse the owner email out of
the URL (failure aborts); look the user up by email. Status 200 with a
match hands over to `get_user_drives`; status 200 with zero matches and
every non-success status fall through to the global-search fallback; a
transport exception is caught by the enclosing `try` and aborts with
failure. -/
def get_drives_from_url (env : GraphEnv) (choice : String) (onedrive_url : String) :
    ResolveOutcome :=
  match parse_url_email onedrive_url with
  | none => ⟨false, [], none, false⟩
  | some email =>
    match env.usersLookup email with
    | Req.exn => ⟨false, [], none, false⟩
    | Req.ok users =>
      match users with
      | u :: _ => get_user_drives env choice u.id u.displayName
      | [] => global_search_phase env choice email
    | Req.status _ => global_search_phase env choice email

/-- Function `obtener_todos_los_drives_usuario` of `one_enum.py` (lines 128-160):
the personal drive (if its request succeeds) tagged `personal`, then every
drive of the full list whose `id` is not already present, tagged `shared`.
The two request outcomes are the inputs. -/
def obtener_todos_los_drives_usuario (personalResp : Req Drive)
    (drivesResp : Req (List Drive)) : List (Drive × String) :=
  let drives : List (Drive × String) :=
    match personalResp with
    | Req.ok d => [(d, "personal")]
    | _ => []
  match drivesResp with
  | Req.ok l =>
    l.foldl (fun acc d =>
      if (acc.map (fun x => x.1.id)).contains d.id then acc
      else acc ++ [(d, "shared")]) drives
  | _ => drives

/-! ## Dedup and tagging of resolved containers (C5) -/

theorem foldl_enum_dedup (l : List Drive) :
    ∀ acc : List (Drive × String),
      ∃ rest,
        l.foldl (fun acc d =>
            if (acc.map (fun x => x.1.id)).contains d.id then acc
            else acc ++ [(d, "shared")]) acc = acc ++ rest ∧
        (∀ x ∈ rest, x.2 = "shared") ∧
        ((acc.map (fun x => x.1.id)).Nodup → ((acc ++ rest).map (fun x => x.1.id)).Nodup) := by
  induction l with
  | nil =>
    intro acc
    exact ⟨[], by simp, by simp, fun h => by simpa using h⟩
  | cons d ds ih =>
    intro acc
    simp only [List.foldl_cons]
    by_cases hc : (acc.map (fun x => x.1.id)).contains d.id
    · simp only [if_pos hc]
      exact ih acc
    · simp only [if_neg hc]
      obtain ⟨rest, heq, htag, hnd⟩ := ih (acc ++ [(d, "shared")])
      refine ⟨(d, "shared") :: rest, ?_, ?_, ?_⟩
      · rw [heq]; simp
      · intro x hx
        rcases List.mem_cons.mp hx with hx | hx
        · rw [hx]
        · exact htag x hx
      · intro hacc
        have hdni : d.id ∉ acc.map (fun x => x.1.id) := fun hmem =>
          hc (List.elem_iff.mpr hmem)
        have hstep : ((acc ++ [(d, "shared")]).map (fun x => x.1.id)).Nodup := by
          simp only [List.map_append, List.map_cons, List.map_nil]
          rw [List.nodup_append]
          exact ⟨hacc, List.nodup_singleton _, by simpa using hdni⟩
        have h2 := hnd hstep
        simpa [List.append_assoc] using h2

theorem foldl_explorer_dedup (user_name : String) (l : List Drive) :
    ∀ acc : List TaggedDrive,
      ∃ rest,
        l.foldl (fun acc d =>
            if acc.any (fun x => x.id == d.id) then acc
            else acc ++ [{ id := d.id, name := d.name, type := "shared", owner := user_name,
                           quotaUsed := d.quotaUsed, quotaTotal := d.quotaTotal }]) acc =
          acc ++ rest ∧
        (∀ x ∈ rest, x.type = "shared") ∧
        ((acc.map (fun x => x.id)).Nodup → ((acc ++ rest).map (fun x => x.id)).Nodup) := by
  induction l with
  | nil =>
    intro acc
    exact ⟨[], by simp, by simp, fun h => by simpa using h⟩
  | cons d ds ih =>
    intro acc
    simp only [List.foldl_cons]
    by_cases hc : acc.any (fun x => x.id == d.id)
    · simp only [if_pos hc]
      exact ih acc
    · simp only [if_neg hc]
      obtain ⟨rest, heq, htag, hnd⟩ :=
        ih (acc ++ [{ id := d.id, name := d.name, type := "shared", owner := user_name,
                      quotaUsed := d.quotaUsed, quotaTotal := d.quotaTotal }])
      refine ⟨({ id := d.id, name := d.name, type := "shared", owner := user_name,
                 quotaUsed := d.quotaUsed, quotaTotal := d.quotaTotal } : TaggedDrive) :: rest,
              ?_, ?_, ?_⟩
      · rw [heq]; simp
      · intro x hx
        rcases List.mem_cons.mp hx with hx | hx
        · rw [hx]
        · exact htag x hx
      · intro hacc
        have hdni : d.id ∉ acc.map (fun x => x.id) := by
          intro hmem
          rcases List.mem_map.mp hmem with ⟨y, hy, hyid⟩
          exact hc (List.any_eq_true.mpr ⟨y, hy, beq_iff_eq.mpr hyid⟩)
        have hstep : ((acc ++ [({ id := d.id, name := d.name, type := "shared",
                                  owner := user_name, quotaUsed := d.quotaUsed,
                                  quotaTotal := d.quotaTotal } : TaggedDrive)]).map
            (fun x => x.id)).Nodup := by
          simp only [List.map_append, List.map_cons, List.map_nil]
          rw [List.nodup_append]
          exact ⟨hacc, List.nodup_singleton _, by simpa using hdni⟩
        have h2 := hnd hstep
        simpa [List.append_assoc] using h2

/-- C5: when both the default-container request and the full-list request
of a principal succeed, the resolved container list contains each `id`
exactly once even when the two responses overlap; its first entry is the
default container tagged `personal`, and every other entry is tagged
`shared`. This holds for both implementations: `get_user_drives` of the
explorer and `obtener_todos_los_drives_usuario` of the enumerator. -/
theorem resolver_dedups_and_tags (env : GraphEnv) (user_id user_name : String)
    (p : Drive) (l : List Drive)
    (h1 : env.userDrive user_id = Req.ok p) (h2 : env.userDrives user_id = Req.ok l) :
    (((get_user_drives_list env user_id user_name).map (fun x => x.id)).Nodup ∧
      ∃ rest, get_user_drives_list env user_id user_name =
          ({ id := p.id, name := user_name ++ " - OneDrive Personal", type := "personal",
             owner := user_name, quotaUsed := p.quotaUsed,
             quotaTotal := p.quotaTotal } : TaggedDrive) :: rest ∧
        ∀ x ∈ rest, x.type = "shared") ∧
    (((obtener_todos_los_drives_usuario (Req.ok p) (Req.ok l)).map
        (fun x => x.1.id)).Nodup ∧
      ∃ rest, obtener_todos_los_drives_usuario (Req.ok p) (Req.ok l) =
          (p, "personal") :: rest ∧
        ∀ x ∈ rest, x.2 = "shared") := by
  constructor
  · have hlist : get_user_drives_list env user_id user_name =
        l.foldl (fun acc d =>
            if acc.any (fun x => x.id == d.id) then acc
            else acc ++ [{ id := d.id, name := d.name, type := "shared", owner := user_name,
                           quotaUsed := d.quotaUsed, quotaTotal := d.quotaTotal }])
          [{ id := p.id, name := user_name ++ " - OneDrive Personal", type := "personal",
             owner := user_name, quotaUsed := p.quotaUsed, quotaTotal := p.quotaTotal }] := by
      unfold get_user_drives_list
      rw [h1, h2]
    obtain ⟨rest, heq, htag, hnd⟩ := foldl_explorer_dedup user_name l
      [{ id := p.id, name := user_name ++ " - OneDrive Personal", type := "personal",
         owner := user_name, quotaUsed := p.quotaUsed, quotaTotal := p.quotaTotal }]
    refine ⟨?_, rest, ?_, htag⟩
    · rw [hlist, heq]
      exact hnd (by simp)
    · rw [hlist, heq]
      rfl
  · have hlist : obtener_todos_los_drives_usuario (Req.ok p) (Req.ok l) =
        l.foldl (fun acc d =>
            if (acc.map (fun x => x.1.id)).contains d.id then acc
            else acc ++ [(d, "shared")]) [(p, "personal")] := by
      unfold obtener_todos_los_drives_usuario
      rfl
    obtain ⟨rest, heq, htag, hnd⟩ := foldl_enum_dedup l [(p, "personal")]
    refine ⟨?_, rest, ?_, htag⟩
    · rw [hlist, heq]
      exact hnd (by simp)
    · rw [hlist, heq]
      rfl

/-- The default drive of the witness environment. -/
def driveP : Drive := { id := "drv-1", name := "OneDrive", quotaUsed := 5, quotaTotal := 10 }

/-- A second drive, distinct from `driveP`. -/
def driveQ : Drive := { id := "drv-2", name := "Second", quotaUsed := 1, quotaTotal := 2 }

/-- A witness environment whose full drive list overlaps the default
drive: the list repeats `driveP` before `driveQ`. -/
def envDup : GraphEnv :=
  { usersLookup := fun _ => Req.ok [],
    userDrive := fun _ => Req.ok driveP,
    userDrives := fun _ => Req.ok [driveP, driveQ],
    sitesSearch := fun _ => Req.ok [],
    siteDrives := fun _ => Req.ok [] }

/-- Witness for C5: on the concrete overlapping responses of `envDup` both
resolved lists carry pairwise distinct ids. -/
theorem resolver_dedups_and_tags_witness :
    ((get_user_drives_list envDup "u1" "User One").map (fun x => x.id)).Nodup ∧
    ((obtener_todos_los_drives_usuario (Req.ok driveP) (Req.ok [driveP, driveQ])).map
      (fun x => x.1.id)).Nodup := by
  have h := resolver_dedups_and_tags envDup "u1" "User One" driveP [driveP, driveQ] rfl rfl
  exact ⟨h.1.1, h.2.1⟩

/-! ## Email reconstruction from the storage URL (C6) -/

/-- The email format as worded by the specification: the name parts — all
but the last two underscore-delimited segments — joined by dots, then the
at sign, then the domain (second-to-last segment), a dot, and the TLD
(last segment). -/
def spec_email_of_segment (segment : String) : String :=
  let parts := pySplit segment "_"
  String.intercalate "." parts.dropLast.dropLast ++ "@" ++
    parts.dropLast.getLastD "" ++ "." ++ parts.getLastD ""

theorem take_sub_two_eq_dropLast_dropLast (l : List String) :
    l.take (l.length - 2) = l.dropLast.dropLast := by
  rw [List.dropLast_eq_take l, List.dropLast_eq_take, List.take_take, List.length_take]
  congr 1
  omega

theorem getD_sub_two_eq_dropLast_getLastD (l : List String) (h : 2 ≤ l.length) (d : String) :
    l.getD (l.length - 2) d = l.dropLast.getLastD d := by
  rw [List.getD_eq_getElem?_getD, List.getLastD_eq_getLast?, List.getLast?_eq_getElem?,
    List.dropLast_eq_take, List.length_take, List.getElem?_take]
  have hidx : min (l.length - 1) l.length - 1 = l.length - 2 := by omega
  rw [hidx, if_pos (by omega)]

/-- C6: for every path segment that splits into at least 3
underscore-separated parts, the code derives exactly the email the
specification describes — all but the last two parts joined with dots,
then the at sign, the second-to-last part, a dot, and the last part; in
particular the segment `jane.doe_contoso_com` (alone and inside a full
URL) yields `jane.doe@contoso.com`. -/
theorem url_email_reconstruction (segment : String)
    (h3 : 3 ≤ (pySplit segment "_").length) :
    email_from_personal_part segment = some (spec_email_of_segment segment) ∧
    email_from_personal_part "jane.doe_contoso_com" = some "jane.doe@contoso.com" ∧
    parse_url_email "https://contoso-my.sharepoint.example/personal/jane.doe_contoso_com" =
      some "jane.doe@contoso.com" := by
  refine ⟨?_, rfl, rfl⟩
  simp only [email_from_personal_part, spec_email_of_segment]
  rw [if_neg (by omega)]
  rw [take_sub_two_eq_dropLast_dropLast, getD_sub_two_eq_dropLast_getLastD _ (by omega)]

/-- Witness for C6: the hypothesis and conclusion instantiated at the
concrete segment of the specification example. -/
theorem url_email_reconstruction_witness :
    3 ≤ (pySplit "jane.doe_contoso_com" "_").length ∧
    email_from_personal_part "jane.doe_contoso_com" =
      some (spec_email_of_segment "jane.doe_contoso_com") := by
  constructor
  · decide
  · exact (url_email_reconstruction "jane.doe_contoso_com" (by decide)).1

/-! ## Fallback to the global search (C7, C8) -/

theorem global_search_phase_tags (env : GraphEnv) (choice email : String) :
    (global_search_phase env choice email).usedGlobalSearch = true ∧
    ∀ d ∈ (global_search_phase env choice email).available_drives, d.type = "huerfano" := by
  have hmap : ∀ d ∈ (search_all_drives_by_email env email).map (fun d =>
      ({ id := d.id, name := d.name, type := "huerfano", owner := email,
         quotaUsed := d.quotaUsed, quotaTotal := d.quotaTotal } : TaggedDrive)),
      d.type = "huerfano" := by
    intro d hd
    rcases List.mem_map.mp hd with ⟨x, _, hx⟩
    rw [← hx]
  simp only [global_search_phase]
  split
  · exact ⟨rfl, hmap⟩
  · split
    · exact ⟨rfl, hmap⟩
    · split
      · exact ⟨rfl, hmap⟩
      · exact ⟨rfl, hmap⟩

/-- C7: whenever the identity lookup of a URL-based resolution returns
status 200 with zero matching users, and likewise whenever it returns the
access-denied status 403, `get_drives_from_url` attempts the tenant-wide
global-search fallback, and every container that fallback produces in
`available_drives` is tagged `huerfano` (orphaned). -/
theorem orphan_fallback_attempted (env : GraphEnv) (choice url email : String)
    (hp : parse_url_email url = some email)
    (hu : env.usersLookup email = Req.ok [] ∨ env.usersLookup email = Req.status 403) :
    (get_drives_from_url env choice url).usedGlobalSearch = true ∧
    ∀ d ∈ (get_drives_from_url env choice url).available_drives, d.type = "huerfano" := by
  rcases hu with hu | hu <;>
    simp only [get_drives_from_url, hp, hu] <;>
    exact global_search_phase_tags env choice email

/-- A site and a drive returned by the global search in the concrete
fallback environments. -/
def siteS : Site := { id := "site-1", displayName := "Site One" }

/-- The drive of `siteS`. -/
def driveS : Drive := { id := "drv-s", name := "Docs", quotaUsed := 3, quotaTotal := 9 }

/-- The URL of the worked example. -/
def urlJane : String :=
  "https://contoso-my.sharepoint.example/personal/jane.doe_contoso_com"

/-- Environment in which the identity lookup finds nobody but the global
search finds one site holding one drive. -/
def envOrphan : GraphEnv :=
  { usersLookup := fun _ => Req.ok [],
    userDrive := fun _ => Req.status 404,
    userDrives := fun _ => Req.status 404,
    sitesSearch := fun _ => Req.ok [siteS],
    siteDrives := fun _ => Req.ok [driveS] }

/-- Witness for C7: on `envOrphan` the lookup returns zero users, the
fallback runs, and the drive it finds is tagged `huerfano`. -/
theorem orphan_fallback_attempted_witness :
    parse_url_email urlJane = some "jane.doe@contoso.com" ∧
    envOrphan.usersLookup "jane.doe@contoso.com" = Req.ok [] ∧
    (get_drives_from_url envOrphan "" urlJane).usedGlobalSearch = true ∧
    ∀ d ∈ (get_drives_from_url envOrphan "" urlJane).available_drives, d.type = "huerfano" := by
  have h := orphan_fallback_attempted envOrphan "" urlJane "jane.doe@contoso.com" rfl
    (Or.inl rfl)
  exact ⟨rfl, rfl, h.1, h.2⟩

theorem global_search_phase_failure (env : GraphEnv) (choice email : String)
    (hf : (global_search_phase env choice email).success = false) :
    (global_search_phase env choice email).usedGlobalSearch = true ∧
    ((global_search_phase env choice email).available_drives = [] ∨
      (1 < (global_search_phase env choice email).available_drives.length ∧
        select_drive choice (global_search_phase env choice email).available_drives = none)) := by
  simp only [global_search_phase] at hf ⊢
  set av := (search_all_drives_by_email env email).map (fun d =>
      ({ id := d.id, name := d.name, type := "huerfano", owner := email,
         quotaUsed := d.quotaUsed, quotaTotal := d.quotaTotal } : TaggedDrive)) with hav
  by_cases h0 : av.length = 0
  · rw [if_pos h0] at hf ⊢
    exact ⟨rfl, Or.inl (List.length_eq_zero.mp h0)⟩
  · rw [if_neg h0] at hf ⊢
    by_cases h1 : av.length = 1
    · rw [if_pos h1] at hf
      simp at hf
    · rw [if_neg h1] at hf ⊢
      cases hsel : select_drive choice av with
      | some did =>
        rw [hsel] at hf
        exact Bool.noConfusion hf
      | none => exact ⟨rfl, Or.inr ⟨show 1 < av.length by omega, hsel⟩⟩

/-- Auxiliary fact for the user-found branch: `get_user_drives` never
invokes the global-search fallback, whatever its outcome. -/
theorem get_user_drives_no_global (env : GraphEnv) (choice user_id user_name : String) :
    (get_user_drives env choice user_id user_name).usedGlobalSearch = false := by
  simp only [get_user_drives]
  split
  · rfl
  · split
    · rfl
    · split
      · rfl
      · rfl

/-- C8 (amended): `get_drives_from_url` reports failure only when one of
the following holds: the identity lookup matched at least one user (the
containers of that user then decide the outcome alone and the fallback is
never attempted), the identity lookup raised a transport exception, or the
global-search fallback was attempted and either returned zero containers
or returned more than one container with the interactive selection
declined. -/
theorem resolution_failure_characterised (env : GraphEnv) (choice url email : String)
    (hp : parse_url_email url = some email)
    (hf : (get_drives_from_url env choice url).success = false) :
    ((∃ u us, env.usersLookup email = Req.ok (u :: us)) ∧
      (get_drives_from_url env choice url).usedGlobalSearch = false) ∨
    env.usersLookup email = Req.exn ∨
    ((get_drives_from_url env choice url).usedGlobalSearch = true ∧
      ((get_drives_from_url env choice url).available_drives = [] ∨
        (1 < (get_drives_from_url env choice url).available_drives.length ∧
          select_drive choice (get_drives_from_url env choice url).available_drives =
            none))) := by
  simp only [get_drives_from_url, hp] at hf ⊢
  cases henv : env.usersLookup email with
  | ok users =>
    rw [henv] at hf
    cases users with
    | nil => exact Or.inr (Or.inr (global_search_phase_failure env choice email hf))
    | cons u us =>
      exact Or.inl ⟨⟨u, us, rfl⟩, get_user_drives_no_global env choice u.id u.displayName⟩
  | status c =>
    rw [henv] at hf
    exact Or.inr (Or.inr (global_search_phase_failure env choice email hf))
  | exn => exact Or.inr (Or.inl rfl)

/-- The single user found by the identity lookup in the counterexample
environment. -/
def userU : User :=
  { id := "u-1", displayName := "User One", userPrincipalName := "user@contoso.example" }

/-- Environment for the C8 counterexample: the identity lookup matches one
user, but the default-drive request fails with 404 and the drive list is
empty, while a global search would have found a drive under a site. -/
def envUserNoDrives : GraphEnv :=
  { usersLookup := fun _ => Req.ok [userU],
    userDrive := fun _ => Req.status 404,
    userDrives := fun _ => Req.ok [],
    sitesSearch := fun _ => Req.ok [siteS],
    siteDrives := fun _ => Req.ok [driveS] }

/-- C8 counterexample: resolution fails (the matched user has zero
containers) yet the global-search fallback — which would have returned a
container — was never attempted, contradicting the claim that failure
implies the fallback was tried and returned nothing. -/
theorem resolution_failure_counterexample :
    (get_drives_from_url envUserNoDrives "" urlJane).success = false ∧
    (get_drives_from_url envUserNoDrives "" urlJane).usedGlobalSearch = false ∧
    search_all_drives_by_email envUserNoDrives "jane.doe@contoso.com" ≠ [] := by
  refine ⟨rfl, rfl, ?_⟩
  decide

/-- Witness for C8 (amended): on the same environment the characterisation
applies — the first disjunct holds since the lookup matched a user. -/
theorem resolution_failure_characterised_witness :
    parse_url_email urlJane = some "jane.doe@contoso.com" ∧
    (get_drives_from_url envUserNoDrives "" urlJane).success = false ∧
    (((∃ u us, envUserNoDrives.usersLookup "jane.doe@contoso.com" = Req.ok (u :: us)) ∧
        (get_drives_from_url envUserNoDrives "" urlJane).usedGlobalSearch = false) ∨
      envUserNoDrives.usersLookup "jane.doe@contoso.com" = Req.exn ∨
      ((get_drives_from_url envUserNoDrives "" urlJane).usedGlobalSearch = true ∧
        ((get_drives_from_url envUserNoDrives "" urlJane).available_drives = [] ∨
          (1 < (get_drives_from_url envUserNoDrives "" urlJane).available_drives.length ∧
            select_drive "" (get_drives_from_url envUserNoDrives "" urlJane).available_drives =
              none)))) := by
  exact ⟨rfl, rfl,
    resolution_failure_characterised envUserNoDrives "" urlJane "jane.doe@contoso.com" rfl rfl⟩

/-! ## The orchestrator of `one_enum.py` (C2)

`generar_reporte_completo` (lines 362-442) is modelled as the trace of its
externally visible effects, in program order. The decisive facts for C2
are order and early return: the three CSV files are created and their
header rows written *before* the authentication attempt, and on a failed
authentication the function merely `return`s. The script never calls
`sys.exit`, so the interpreter ends the process with status 0 whether or
not authentication succeeded.
-/

inductive RunEvent where
  /-- A CSV file is created (truncating mode) and its header row written. -/
  | createCsv (filename : String) (headers : List String)
  /-- The token request of `get_access_token`, with its outcome. -/
  | authAttempt (ok : Bool)
  /-- User enumeration completed with this many users. -/
  | enumUsuarios (total : Nat)
  /-- Site enumeration completed with this many sites. -/
  | enumSites (total : Nat)
  /-- The per-user worker pool ran over this many users. -/
  | procesarUsuarios (total : Nat)
  /-- The per-site worker pool ran over this many sites. -/
  | procesarSites (total : Nat)
  /-- The final summary was printed. -/
  | resumen
deriving DecidableEq

/-- The inputs of one enumerator run: the timestamp used in the output
filenames, the outcome of the token request, and the page responses of the
two enumeration endpoints. -/
structure OneEnumEnv where
  timestamp : String
  authOk : Bool
  userPages : List (Page User)
  sitePages : List (Page Site)

/-- Header row of the `usuarios` CSV (lines 376-377). -/
def usuarios_headers : List String :=
  ["user_id", "nombre", "email", "drive_id", "drive_name", "drive_type",
   "drive_url", "quota_usado_gb", "quota_total_gb", "porcentaje_uso", "timestamp"]

/-- Header row of the `sites` CSV (lines 378-379). -/
def sites_headers : List String :=
  ["tipo", "nombre", "email", "url", "drive_id", "drive_name", "drive_type",
   "quota_usado_gb", "quota_total_gb", "porcentaje_uso", "timestamp"]

/-- Header row of the `archivos` CSV (lines 380-381). -/
def archivos_headers : List String :=
  ["drive_id", "ruta", "nombre", "tipo", "tamaño_bytes", "creado",
   "modificado", "url", "profundidad", "timestamp"]

/-- Function `generar_reporte_completo` (lines 362-442) as its effect trace: create
the three CSVs with their headers, attempt authentication, and on failure
`return`; on success enumerate users, then sites, run the two worker
pools, and print the summary. -/
def generar_reporte_completo (env : OneEnumEnv) : List RunEvent :=
  let usuarios_csv := "usuarios_" ++ env.timestamp ++ ".csv"
  let sites_csv := "sites_" ++ env.timestamp ++ ".csv"
  let archivos_csv := "archivos_" ++ env.timestamp ++ ".csv"
  let setup := [RunEvent.createCsv usuarios_csv usuarios_headers,
                RunEvent.createCsv sites_csv sites_headers,
                RunEvent.createCsv archivos_csv archivos_headers]
  if env.authOk = false then
    setup ++ [RunEvent.authAttempt false]
  else
    let usuarios := listar_todos_los_usuarios env.userPages
    let sites := listar_todos_los_sites env.sitePages
    setup ++ [RunEvent.authAttempt true,
              RunEvent.enumUsuarios usuarios.length,
              RunEvent.enumSites sites.length,
              RunEvent.procesarUsuarios usuarios.length,
              RunEvent.procesarSites sites.length,
              RunEvent.resumen]

/-- The `__main__` block of `one_enum.py` (lines 445-463): parse the
arguments, run `generar_reporte_completo`, and fall off the end. No
`sys.exit` call exists in the script, so the process exit status is 0 on
every path, including a failed authentication. Returns the effect trace
and the process exit status. -/
def one_enum_main (env : OneEnumEnv) : List RunEvent × Nat :=
  (generar_reporte_completo env, 0)

/-- A concrete run whose authentication fails. -/
def envAuthFail : OneEnumEnv :=
  { timestamp := "20240101_000000", authOk := false, userPages := [], sitePages := [] }

/-- C2 counterexample: on a run with failed authentication the process
exit status is 0 — not non-zero — and an output file (the `usuarios` CSV,
with its header) has already been created before the authentication
attempt, contradicting both halves of the claim. -/
theorem auth_failure_exit_counterexample :
    (one_enum_main envAuthFail).2 = 0 ∧
    RunEvent.createCsv "usuarios_20240101_000000.csv" usuarios_headers ∈
      (one_enum_main envAuthFail).1 := by
  refine ⟨rfl, ?_⟩
  show RunEvent.createCsv "usuarios_20240101_000000.csv" usuarios_headers ∈
    generar_reporte_completo envAuthFail
  rw [show generar_reporte_completo envAuthFail =
    [RunEvent.createCsv "usuarios_20240101_000000.csv" usuarios_headers,
     RunEvent.createCsv "sites_20240101_000000.csv" sites_headers,
     RunEvent.createCsv "archivos_20240101_000000.csv" archivos_headers,
     RunEvent.authAttempt false] from rfl]
  exact List.mem_cons_self _ _

/-- C2 (amended): on every run in which authentication fails, the three
output CSV files have already been created — each with its header row —
before the authentication attempt; the run then stops without enumerating
anything or writing any data row, and the process exits with status 0, not
a non-zero status. -/
theorem auth_failure_files_created_exit_zero (env : OneEnumEnv)
    (hauth : env.authOk = false) :
    one_enum_main env =
      ([RunEvent.createCsv ("usuarios_" ++ env.timestamp ++ ".csv") usuarios_headers,
        RunEvent.createCsv ("sites_" ++ env.timestamp ++ ".csv") sites_headers,
        RunEvent.createCsv ("archivos_" ++ env.timestamp ++ ".csv") archivos_headers,
        RunEvent.authAttempt false], 0) := by
  simp only [one_enum_main, generar_reporte_completo, hauth]
  rfl

/-- Witness for C2 (amended): the amended statement evaluated on the
concrete failed-authentication run. -/
theorem auth_failure_files_created_exit_zero_witness :
    envAuthFail.authOk = false ∧
    one_enum_main envAuthFail =
      ([RunEvent.createCsv ("usuarios_" ++ envAuthFail.timestamp ++ ".csv") usuarios_headers,
        RunEvent.createCsv ("sites_" ++ envAuthFail.timestamp ++ ".csv") sites_headers,
        RunEvent.createCsv ("archivos_" ++ envAuthFail.timestamp ++ ".csv") archivos_headers,
        RunEvent.authAttempt false], 0) :=
  ⟨rfl, auth_failure_files_created_exit_zero envAuthFail rfl⟩

end OneDriveExplorer
